import Mathlib

/-!
Shallow embedding of `src/scripts/src/main.rs` from the `certik/wasi`
repository: a WGSL-to-MSL shader translator built on the naga library.

Rust strings are modelled as `List Char`.  The external collaborators
(file system, WGSL parser, validator, MSL code generator) are modelled as
oracle parameters of the driver; everything the translator itself computes
(entry-point classification, binding-map construction, textual renaming,
stage sequencing) is embedded directly from the source.
-/

namespace WgslToMsl

/-- naga `ResourceBinding`: a (group, binding) pair.  The fields are `u32`
in Rust; no arithmetic is ever performed on them other than the `as u8`
cast modelled below, so they are embedded as `Nat`. -/
structure ResourceBinding where
  group : Nat
  binding : Nat
  deriving DecidableEq

/-- naga `StorageAccess` bitflags (`LOAD`, `STORE`), modelled as a record of
booleans.  The source only ever tests `access.contains(StorageAccess::STORE)`. -/
structure StorageAccess where
  load : Bool
  store : Bool
  deriving DecidableEq

/-- naga `AddressSpace`. -/
inductive AddressSpace where
  | Function
  | Private
  | WorkGroup
  | Uniform
  | Storage (access : StorageAccess)
  | Handle
  | PushConstant
  deriving DecidableEq

/-- naga `GlobalVariable`, restricted to the two fields the translator
reads: the address space and the optional explicit (group, binding) pair. -/
structure GlobalVariable where
  space : AddressSpace
  binding : Option ResourceBinding
  deriving DecidableEq

/-- naga `EntryPoint`, restricted to the one field the translator reads. -/
structure EntryPoint where
  name : String
  deriving DecidableEq

/-- naga `Module`, restricted to what the translator iterates: global
variables (arena order = declaration order) and entry points. -/
structure Module where
  global_variables : List GlobalVariable
  entry_points : List EntryPoint
  deriving DecidableEq

/-- naga `msl::BindTarget`.  The `buffer` slot is a `u8` in naga; its
values here are the results of the `as u8` cast, hence always < 256. -/
structure BindTarget where
  buffer : Option Nat
  texture : Option Nat
  sampler : Option Nat
  mutable : Bool
  deriving DecidableEq

/-- naga `msl::EntryPointResources`.  The `resources` BTreeMap is modelled
as an association list built with `mapInsert` (same key-value mapping). -/
structure EntryPointResources where
  resources : List (ResourceBinding × BindTarget)
  push_constant_buffer : Option Nat
  sizes_buffer : Option Nat
  deriving DecidableEq

/-- `BTreeMap::insert` on an association list: replace the value at an
existing key, otherwise append.  (A BTreeMap additionally keeps keys
sorted; the claims only concern the resulting key-value mapping, which is
identical.) -/
def mapInsert {α β : Type} [DecidableEq α] (k : α) (v : β) :
    List (α × β) → List (α × β)
  | [] => [(k, v)]
  | (k', v') :: rest =>
    if k = k' then (k, v) :: rest else (k', v') :: mapInsert k v rest

/-- The `match global_var.space` arm of the builder loop in
`convert_wgsl_to_msl` (main.rs lines 72-85): uniform/storage spaces yield a
`BindTarget` whose buffer slot is the binding index cast with `as u8`
(i.e. reduced mod 256) and whose mutability is
`matches!(space, Storage { access } if access.contains(STORE))`;
every other address space is skipped (`continue`). -/
def convert_space_to_target (space : AddressSpace) (bindingIndex : Nat) :
    Option BindTarget :=
  match space with
  | AddressSpace.Uniform =>
    some { buffer := some (bindingIndex % 256), texture := none,
           sampler := none, mutable := false }
  | AddressSpace.Storage access =>
    some { buffer := some (bindingIndex % 256), texture := none,
           sampler := none, mutable := access.store }
  | _ => none

/-- Inner loop of `convert_wgsl_to_msl` (main.rs lines 60-90): iterate the
module's global variables in declaration order (the index `i` models the
arena handle), keeping those used by the entry point
(`!ep_info[handle].is_empty()`, modelled by the `used` predicate), that
carry an explicit binding, and whose address space is uniform or storage. -/
def build_entry_resources_go (used : Nat → Bool) :
    Nat → List GlobalVariable → List (ResourceBinding × BindTarget) →
      List (ResourceBinding × BindTarget)
  | _, [], acc => acc
  | i, g :: gs, acc =>
    build_entry_resources_go used (i + 1) gs
      (if used i then
        match g.binding with
        | some b =>
          match convert_space_to_target g.space b.binding with
          | some bt => mapInsert { group := b.group, binding := b.binding } bt acc
          | none => acc
        | none => acc
      else acc)

/-- The per-entry-point resource map built for one entry point. -/
def build_entry_resources (globals : List GlobalVariable) (used : Nat → Bool) :
    List (ResourceBinding × BindTarget) :=
  build_entry_resources_go used 0 globals []

/-- Outer loop of the binding-map construction (main.rs lines 55-99),
iterating entry points with their index `j` (`enumerate`). -/
def build_per_entry_point_map_go (globals : List GlobalVariable)
    (used : Nat → Nat → Bool) :
    Nat → List EntryPoint → List (String × EntryPointResources) →
      List (String × EntryPointResources)
  | _, [], acc => acc
  | j, ep :: eps, acc =>
    build_per_entry_point_map_go globals used (j + 1) eps
      (mapInsert ep.name
        { resources := build_entry_resources globals (used j)
          push_constant_buffer := none
          sizes_buffer := none } acc)

/-- The `per_entry_point_map` built by `convert_wgsl_to_msl`
(main.rs lines 53-99). -/
def build_per_entry_point_map (m : Module) (used : Nat → Nat → Bool) :
    List (String × EntryPointResources) :=
  build_per_entry_point_map_go m.global_variables used 0 m.entry_points []

/-- `determine_entrypoint_name` (main.rs lines 138-155). -/
def determine_entrypoint_name (file_stem : List Char) : Option (List Char) :=
  if ("_vertex".data) <:+ file_stem then
    if ("_overlay_".data) <:+: file_stem then some ("overlay_vertex".data)
    else some ("main_vertex".data)
  else if ("_fragment".data) <:+ file_stem then
    if ("_overlay_".data) <:+: file_stem then some ("overlay_fragment".data)
    else some ("main_fragment".data)
  else none

/-- Rust `str::replace`: replace every non-overlapping occurrence of `pat`,
scanning left to right.  (Both call sites in the program use a fixed
non-empty pattern; for `pat = []` this returns the string unchanged.) -/
def replaceAll (pat repl : List Char) : List Char → List Char
  | [] => []
  | c :: rest =>
    if pat ≠ [] ∧ pat <+: (c :: rest) then
      repl ++ replaceAll pat repl (List.drop (pat.length - 1) rest)
    else
      c :: replaceAll pat repl rest
  termination_by s => s.length
  decreasing_by
    · simp only [List.length_cons, List.length_drop]
      omega
    · simp only [List.length_cons]
      omega

/-- `rename_entrypoint` (main.rs lines 157-167): substitute both the
vertex-kind and the fragment-kind declaration pattern of `old_name`,
unconditionally and with the same replacement name. -/
def rename_entrypoint (msl_source old_name new_name : List Char) : List Char :=
  let vertex_pattern := ("vertex main_Output ".data) ++ old_name ++ ("(".data)
  let fragment_pattern := ("fragment main_Output ".data) ++ old_name ++ ("(".data)
  let result := replaceAll vertex_pattern
    (("vertex main_Output ".data) ++ new_name ++ ("(".data)) msl_source
  replaceAll fragment_pattern
    (("fragment main_Output ".data) ++ new_name ++ ("(".data)) result

/-- `convert_wgsl_to_msl` (main.rs lines 28-136), with the external
collaborators passed in as oracles: `readRes` is the outcome of
`fs::read_to_string`, `parseFn` of `naga::front::wgsl::parse_str`,
`validateFn` of `Validator::validate` (its payload modelled by the
per-entry-point usage predicate), `fileStem` of
`input_path.file_stem().and_then(|s| s.to_str())`, `generateFn` of
`msl::write_string`, and `writeRes` of `fs::write`.  The second component
of the result is the content handed to `fs::write`, if the pipeline
reached that step (`none` = no output file was written). -/
def convert_wgsl_to_msl
    (inputPath outputPath : String)
    (readRes : Except String String)
    (parseFn : String → Except String Module)
    (validateFn : Module → Except String (Nat → Nat → Bool))
    (fileStem : Option (List Char))
    (generateFn : Module → (Nat → Nat → Bool) →
      List (String × EntryPointResources) → Except String (List Char))
    (writeRes : List Char → Except String Unit) :
    Except String Unit × Option (List Char) :=
  match readRes with
  | Except.error e =>
    (Except.error (("Failed to read ") ++ inputPath ++ (": ") ++ e), none)
  | Except.ok wgsl_source =>
    match parseFn wgsl_source with
    | Except.error e => (Except.error (("WGSL parse error: ") ++ e), none)
    | Except.ok module =>
      match validateFn module with
      | Except.error e => (Except.error (("Validation error: ") ++ e), none)
      | Except.ok module_info =>
        match fileStem with
        | none => (Except.error ("Invalid filename"), none)
        | some file_stem =>
          let entrypoint_name := determine_entrypoint_name file_stem
          let per_entry_point_map := build_per_entry_point_map module module_info
          match generateFn module module_info per_entry_point_map with
          | Except.error e =>
            (Except.error (("MSL generation error: ") ++ e), none)
          | Except.ok msl_source =>
            let msl_final :=
              match entrypoint_name with
              | some new_name => rename_entrypoint msl_source ("main_".data) new_name
              | none => msl_source
            match writeRes msl_final with
            | Except.error e =>
              (Except.error (("Failed to write ") ++ outputPath ++ (": ") ++ e),
                some msl_final)
            | Except.ok _ => (Except.ok (), some msl_final)

/-- Outcome of one process run of `main` (main.rs lines 11-26): either a
normal exit with the given code and the lines printed to stderr and
stdout, or a Rust panic. -/
inductive MainOutcome where
  | exit (code : Nat) (stderrLines : List String) (stdoutLines : List String)
  | panicked (msg : String)
  deriving DecidableEq

/-- `main` (main.rs lines 11-26), with the pipeline outcome for the given
paths passed as an oracle.  `args` models `env::args().collect()`, which
per the Rust documentation may be empty; indexing `args[0]` on an empty
vector panics with the standard index-out-of-bounds message. -/
def mainFn (args : List String) (pipeline : Except String Unit) : MainOutcome :=
  if args.length ≠ 3 then
    match args with
    | [] => MainOutcome.panicked ("index out of bounds: the len is 0 but the index is 0")
    | a0 :: _ =>
      MainOutcome.exit 1 [("Usage: ") ++ a0 ++ (" <input.wgsl> <output.msl>")] []
  else
    match pipeline with
    | Except.error e => MainOutcome.exit 1 [("Error: ") ++ e] []
    | Except.ok _ => MainOutcome.exit 0 [] []

/-- Usage predicate reporting every global as used by every entry point. -/
def usedAll : Nat → Nat → Bool := fun _ _ => true

/-- A module with one uniform global at (group 1, binding 2) and one entry point. -/
def uniMod : Module :=
  { global_variables :=
      [{ space := AddressSpace.Uniform, binding := some { group := 1, binding := 2 } }]
    entry_points := [{ name := "vmain" }] }

/-- A module with one storage global (load and store access) at (0, 3). -/
def storeMod : Module :=
  { global_variables :=
      [{ space := AddressSpace.Storage { load := true, store := true },
         binding := some { group := 0, binding := 3 } }]
    entry_points := [{ name := "smain" }] }

/-- A module with one uniform global at (0, 7). -/
def slotMod : Module :=
  { global_variables :=
      [{ space := AddressSpace.Uniform, binding := some { group := 0, binding := 7 } }]
    entry_points := [{ name := "umain" }] }

/-- A module with one uniform global whose binding index 300 exceeds the
0-255 range representable in the MSL backend's `u8` buffer slot. -/
def truncMod : Module :=
  { global_variables :=
      [{ space := AddressSpace.Uniform, binding := some { group := 0, binding := 300 } }]
    entry_points := [{ name := "tmain" }] }

/-- A parse oracle returning the empty module. -/
def pfD : String → Except String Module :=
  fun _ => Except.ok { global_variables := [], entry_points := [] }

/-- A validate oracle reporting every global as used. -/
def vfD : Module → Except String (Nat → Nat → Bool) :=
  fun _ => Except.ok usedAll

/-- A generator oracle returning a fixed MSL text. -/
def gfD : Module → (Nat → Nat → Bool) →
    List (String × EntryPointResources) → Except String (List Char) :=
  fun _ _ _ => Except.ok ("msl".data)

/-- A write oracle that always succeeds. -/
def wfD : List Char → Except String Unit :=
  fun _ => Except.ok ()

/-- Two suffixes of the same list are comparable; since neither of the two
suffix markers is a suffix of the other, a stem ending in the fragment
marker cannot also end in the vertex marker. -/
theorem fragment_suffix_not_vertex {s : List Char}
    (hf : ("_fragment".data) <:+ s) : ¬ (("_vertex".data) <:+ s) := by
  intro hv
  rcases List.suffix_or_suffix_of_suffix hv hf with h | h
  · exact absurd h (by decide)
  · exact absurd h (by decide)

/-- C2: the entry-point classifier is total over strings and returns
"overlay_vertex" on stems ending in the vertex suffix marker that contain
the overlay marker, "main_vertex" on stems ending in the vertex suffix
marker without the overlay marker, the analogous pair for the fragment
suffix marker, and no rename (`none`) on every other stem; there is no
error outcome. -/
theorem determine_entrypoint_name_total_cases (s : List Char) :
    ((("_vertex".data) <:+ s) → (("_overlay_".data) <:+: s) →
      determine_entrypoint_name s = some ("overlay_vertex".data)) ∧
    ((("_vertex".data) <:+ s) → ¬ (("_overlay_".data) <:+: s) →
      determine_entrypoint_name s = some ("main_vertex".data)) ∧
    ((("_fragment".data) <:+ s) → (("_overlay_".data) <:+: s) →
      determine_entrypoint_name s = some ("overlay_fragment".data)) ∧
    ((("_fragment".data) <:+ s) → ¬ (("_overlay_".data) <:+: s) →
      determine_entrypoint_name s = some ("main_fragment".data)) ∧
    (¬ (("_vertex".data) <:+ s) → ¬ (("_fragment".data) <:+ s) →
      determine_entrypoint_name s = none) := by
  refine ⟨?_, ?_, ?_, ?_, ?_⟩ <;> intro h1 h2 <;>
    simp only [determine_entrypoint_name]
  · rw [if_pos h1, if_pos h2]
  · rw [if_pos h1, if_neg h2]
  · rw [if_neg (fragment_suffix_not_vertex h1), if_pos h1, if_pos h2]
  · rw [if_neg (fragment_suffix_not_vertex h1), if_pos h1, if_neg h2]
  · rw [if_neg h1, if_neg h2]

/-- Witness for C2: the classifier evaluated on the concrete stem
"my_overlay_vertex". -/
theorem determine_entrypoint_name_total_cases_witness :
    determine_entrypoint_name ("my_overlay_vertex".data) =
      some ("overlay_vertex".data) :=
  (determine_entrypoint_name_total_cases ("my_overlay_vertex".data)).1
    (by decide) (by decide)

/-- C10: the overlay marker is the underscore-delimited string
"_overlay_": the stem "overlay_vertex" (no leading underscore around
"overlay") is classified as the non-overlay variant "main_vertex", while a
stem containing the delimited marker is classified as "overlay_vertex". -/
theorem overlay_marker_is_underscore_delimited :
    determine_entrypoint_name ("overlay_vertex".data) = some ("main_vertex".data) ∧
    determine_entrypoint_name ("x_overlay_vertex".data) = some ("overlay_vertex".data) := by
  constructor
  · decide
  · decide

/-- If the pattern occurs nowhere in the string, `replaceAll` is the identity. -/
theorem replaceAll_of_not_occurs (pat repl : List Char) :
    ∀ s : List Char, ¬ (pat <:+: s) → replaceAll pat repl s = s := by
  intro s
  induction s with
  | nil => intro _; rw [replaceAll]
  | cons c rest ih =>
    intro h
    rw [replaceAll, if_neg, ih]
    · intro hr
      rcases hr with ⟨u, t, hut⟩
      exact h ⟨c :: u, t, by rw [← hut]; rfl⟩
    · rintro ⟨-, t, ht⟩
      exact h ⟨[], t, by rw [← ht]; rfl⟩

/-- `replaceAll` on a string starting with the (non-empty) pattern replaces
that occurrence and continues after it. -/
theorem replaceAll_head_occurrence (pat repl b : List Char) (hne : pat ≠ []) :
    replaceAll pat repl (pat ++ b) = repl ++ replaceAll pat repl b := by
  match pat, hne with
  | p :: ps, _ =>
    show replaceAll (p :: ps) repl (p :: (ps ++ b)) = _
    rw [replaceAll, if_pos ⟨List.cons_ne_nil p ps, ⟨b, rfl⟩⟩]
    have hd : List.drop ((p :: ps).length - 1) (ps ++ b) = b := by
      simp only [List.length_cons, Nat.add_sub_cancel]
      exact List.drop_left ps b
    rw [hd]

/-- `replaceAll` copies verbatim a leading segment in which no occurrence
of the pattern starts. -/
theorem replaceAll_skip_segment (pat repl : List Char) :
    ∀ (a s : List Char),
      (∀ i, i < a.length → ¬ (pat <+: List.drop i (a ++ s))) →
      replaceAll pat repl (a ++ s) = a ++ replaceAll pat repl s := by
  intro a
  induction a with
  | nil => intro s _; rfl
  | cons c a2 ih =>
    intro s h
    have h0 : ¬ (pat <+: (c :: (a2 ++ s))) := by
      have := h 0 (by simp)
      simpa using this
    show replaceAll pat repl (c :: (a2 ++ s)) = _
    rw [replaceAll, if_neg (fun hc => h0 hc.2), ih s]
    · rfl
    · intro i hi
      have := h (i + 1) (by simp only [List.length_cons]; omega)
      simpa using this

/-- The vertex-kind pattern built by `rename_entrypoint` for the default
name "main_" is the literal "vertex main_Output main_(". -/
theorem vertex_pattern_eq :
    ("vertex main_Output ".data) ++ ("main_".data) ++ ("(".data) =
      ("vertex main_Output main_(".data) := by decide

/-- The fragment-kind pattern built by `rename_entrypoint` for the default
name "main_" is the literal "fragment main_Output main_(". -/
theorem fragment_pattern_eq :
    ("fragment main_Output ".data) ++ ("main_".data) ++ ("(".data) =
      ("fragment main_Output main_(".data) := by decide

/-- C6: on any text in which neither the vertex-kind nor the fragment-kind
declaration pattern of the default name "main_" occurs, the renamer
returns the text unchanged; this no-op is a valid outcome, not an error. -/
theorem rename_entrypoint_noop (text new_name : List Char)
    (hv : ¬ (("vertex main_Output main_(".data) <:+: text))
    (hf : ¬ (("fragment main_Output main_(".data) <:+: text)) :
    rename_entrypoint text ("main_".data) new_name = text := by
  simp only [rename_entrypoint]
  rw [vertex_pattern_eq, fragment_pattern_eq,
    replaceAll_of_not_occurs _ _ _ hv, replaceAll_of_not_occurs _ _ _ hf]

/-- Witness for C6: the renamer is the identity on a concrete text that
contains neither declaration pattern. -/
theorem rename_entrypoint_noop_witness :
    rename_entrypoint ("float4 color;".data) ("main_".data)
      ("overlay_vertex".data) = ("float4 color;".data) :=
  rename_entrypoint_noop _ _ (by decide) (by decide)

/-- C7: both substitutions are attempted unconditionally with the same
replacement name, so on a text containing only one of the two patterns the
renamer rewrites exactly the occurrence of the matching pattern (replacing
the default name "main_" with the replacement name inside it) and leaves
every other byte of the text identical.  The first conjunct treats a text
containing only the vertex pattern, the second only the fragment pattern;
in each, the occurrence hypotheses say that no occurrence of the matching
pattern starts inside the prefix `a` or occurs in the suffix `b`, and that
the other pattern occurs nowhere. -/
theorem rename_entrypoint_rewrites_only_match :
    (∀ a b n : List Char,
      (∀ i, i < a.length → ¬ (("vertex main_Output main_(".data) <+:
        List.drop i (a ++ ("vertex main_Output main_(".data) ++ b))) →
      ¬ (("vertex main_Output main_(".data) <:+: b) →
      ¬ (("fragment main_Output main_(".data) <:+:
        (a ++ (("vertex main_Output ".data) ++ n ++ ("(".data)) ++ b)) →
      rename_entrypoint (a ++ ("vertex main_Output main_(".data) ++ b)
          ("main_".data) n =
        a ++ ("vertex main_Output ".data) ++ n ++ ("(".data) ++ b) ∧
    (∀ a b n : List Char,
      ¬ (("vertex main_Output main_(".data) <:+:
        (a ++ ("fragment main_Output main_(".data) ++ b)) →
      (∀ i, i < a.length → ¬ (("fragment main_Output main_(".data) <+:
        List.drop i (a ++ ("fragment main_Output main_(".data) ++ b))) →
      ¬ (("fragment main_Output main_(".data) <:+: b) →
      rename_entrypoint (a ++ ("fragment main_Output main_(".data) ++ b)
          ("main_".data) n =
        a ++ ("fragment main_Output ".data) ++ n ++ ("(".data) ++ b) := by
  constructor
  · intro a b n hA hb hf
    simp only [rename_entrypoint]
    rw [vertex_pattern_eq, fragment_pattern_eq]
    simp only [List.append_assoc] at hA hf ⊢
    rw [replaceAll_skip_segment _ _ a _ hA,
      replaceAll_head_occurrence _ _ _ (by decide),
      replaceAll_of_not_occurs _ _ _ hb]
    simp only [List.append_assoc]
    rw [replaceAll_of_not_occurs _ _ _ hf]
  · intro a b n hv hA hb
    simp only [rename_entrypoint]
    rw [vertex_pattern_eq, fragment_pattern_eq]
    simp only [List.append_assoc] at hv hA ⊢
    rw [replaceAll_of_not_occurs _ _ _ hv,
      replaceAll_skip_segment _ _ a _ hA,
      replaceAll_head_occurrence _ _ _ (by decide),
      replaceAll_of_not_occurs _ _ _ hb]
    simp only [List.append_assoc]

/-- Witness for C7: both conjuncts applied to the concrete texts
"A vertex main_Output main_( B" and "A fragment main_Output main_( B"
with replacement name "main_vertex". -/
theorem rename_entrypoint_rewrites_only_match_witness :
    (rename_entrypoint
        (("A ".data) ++ ("vertex main_Output main_(".data) ++ (" B".data))
        ("main_".data) ("main_vertex".data) =
      ("A ".data) ++ ("vertex main_Output ".data) ++ ("main_vertex".data) ++
        ("(".data) ++ (" B".data)) ∧
    (rename_entrypoint
        (("A ".data) ++ ("fragment main_Output main_(".data) ++ (" B".data))
        ("main_".data) ("main_vertex".data) =
      ("A ".data) ++ ("fragment main_Output ".data) ++ ("main_vertex".data) ++
        ("(".data) ++ (" B".data)) :=
  ⟨rename_entrypoint_rewrites_only_match.1 _ _ _
      (by decide) (by decide) (by decide),
    rename_entrypoint_rewrites_only_match.2 _ _ _
      (by decide) (by decide) (by decide)⟩

/-- Membership after a `mapInsert` comes from the inserted pair or from the
original list. -/
theorem mem_mapInsert {α β : Type} [DecidableEq α] {k : α} {v : β}
    {m : List (α × β)} {k2 : α} {v2 : β}
    (h : (k2, v2) ∈ mapInsert k v m) :
    (k2 = k ∧ v2 = v) ∨ (k2, v2) ∈ m := by
  induction m with
  | nil =>
    simp only [mapInsert, List.mem_singleton, Prod.mk.injEq] at h
    exact Or.inl h
  | cons hd tl ih =>
    obtain ⟨k3, v3⟩ := hd
    simp only [mapInsert] at h
    split at h
    · rcases List.mem_cons.mp h with h1 | h1
      · simp only [Prod.mk.injEq] at h1
        exact Or.inl h1
      · exact Or.inr (List.mem_cons_of_mem _ h1)
    · rcases List.mem_cons.mp h with h1 | h1
      · exact Or.inr (h1 ▸ List.mem_cons_self _ _)
      · rcases ih h1 with h2 | h2
        · exact Or.inl h2
        · exact Or.inr (List.mem_cons_of_mem _ h2)

/-- Every pair in the inner builder loop's accumulator comes from the
initial accumulator or from a global variable that passed all three
filters (usage, explicit binding, buffer address space). -/
theorem mem_build_entry_resources_go {used : Nat → Bool} :
    ∀ (gs : List GlobalVariable) (i : Nat)
      (acc : List (ResourceBinding × BindTarget))
      {k : ResourceBinding} {v : BindTarget},
      (k, v) ∈ build_entry_resources_go used i gs acc →
      (k, v) ∈ acc ∨
        ∃ j g, gs.get? j = some g ∧ used (i + j) = true ∧
          g.binding = some k ∧
          convert_space_to_target g.space k.binding = some v := by
  intro gs
  induction gs with
  | nil =>
    intro i acc k v h
    exact Or.inl h
  | cons g gs ih =>
    intro i acc k v h
    simp only [build_entry_resources_go] at h
    rcases ih (i + 1) _ h with hacc | ⟨j, g2, hj, hu, hb, hc⟩
    · by_cases hui : used i = true
      · rw [if_pos hui] at hacc
        rcases hgb : g.binding with _ | b
        · rw [hgb] at hacc
          exact Or.inl hacc
        · rw [hgb] at hacc
          dsimp only at hacc
          rcases hcs : convert_space_to_target g.space b.binding with _ | bt
          · rw [hcs] at hacc
            exact Or.inl hacc
          · rw [hcs] at hacc
            dsimp only at hacc
            rcases mem_mapInsert hacc with ⟨hk, hv⟩ | hmem
            · refine Or.inr ⟨0, g, rfl, ?_, ?_, ?_⟩
              · rw [Nat.add_zero]
                exact hui
              · rw [hk]
                exact hgb
              · rw [hk, hv]
                exact hcs
            · exact Or.inl hmem
      · rw [if_neg hui] at hacc
        exact Or.inl hacc
    · refine Or.inr ⟨j + 1, g2, hj, ?_, hb, hc⟩
      have e : i + (j + 1) = i + 1 + j := by omega
      rw [e]
      exact hu

/-- Every pair in one entry point's resource map comes from a global
variable that is used by that entry point, has an explicit binding equal
to the map key, and is in a buffer address space. -/
theorem mem_build_entry_resources {globals : List GlobalVariable}
    {used : Nat → Bool} {k : ResourceBinding} {v : BindTarget}
    (h : (k, v) ∈ build_entry_resources globals used) :
    ∃ i g, globals.get? i = some g ∧ used i = true ∧
      g.binding = some k ∧
      convert_space_to_target g.space k.binding = some v := by
  rcases mem_build_entry_resources_go globals 0 [] h with h0 | ⟨j, g, hj, hu, hb, hc⟩
  · exact absurd h0 (List.not_mem_nil _)
  · refine ⟨j, g, hj, ?_, hb, hc⟩
    rw [Nat.zero_add] at hu
    exact hu

/-- Every entry of the per-entry-point map built by the outer loop comes
from the initial accumulator or from an entry point of the list, and its
payload is the resource map built for that entry point's index. -/
theorem mem_build_per_entry_point_map_go {globals : List GlobalVariable}
    {used : Nat → Nat → Bool} :
    ∀ (eps : List EntryPoint) (j0 : Nat)
      (acc : List (String × EntryPointResources))
      {name : String} {epr : EntryPointResources},
      (name, epr) ∈ build_per_entry_point_map_go globals used j0 eps acc →
      (name, epr) ∈ acc ∨
        ∃ j ep, eps.get? j = some ep ∧ ep.name = name ∧
          epr = { resources := build_entry_resources globals (used (j0 + j)),
                  push_constant_buffer := none, sizes_buffer := none } := by
  intro eps
  induction eps with
  | nil =>
    intro j0 acc name epr h
    exact Or.inl h
  | cons ep eps ih =>
    intro j0 acc name epr h
    simp only [build_per_entry_point_map_go] at h
    rcases ih (j0 + 1) _ h with hacc | ⟨j, ep2, hj, hn, hepr⟩
    · rcases mem_mapInsert hacc with ⟨hk, hv⟩ | hmem
      · refine Or.inr ⟨0, ep, rfl, hk.symm, ?_⟩
        rw [Nat.add_zero]
        exact hv
      · exact Or.inl hmem
    · refine Or.inr ⟨j + 1, ep2, hj, hn, ?_⟩
      have e : j0 + (j + 1) = j0 + 1 + j := by omega
      rw [e]
      exact hepr

/-- Every entry of the module's per-entry-point map belongs to one of the
module's entry points and carries the resource map built for its index. -/
theorem mem_build_per_entry_point_map {m : Module} {used : Nat → Nat → Bool}
    {name : String} {epr : EntryPointResources}
    (h : (name, epr) ∈ build_per_entry_point_map m used) :
    ∃ j ep, m.entry_points.get? j = some ep ∧ ep.name = name ∧
      epr = { resources := build_entry_resources m.global_variables (used j),
              push_constant_buffer := none, sizes_buffer := none } := by
  rcases mem_build_per_entry_point_map_go m.entry_points 0 [] h with
    h0 | ⟨j, ep, hj, hn, hepr⟩
  · exact absurd h0 (List.not_mem_nil _)
  · refine ⟨j, ep, hj, hn, ?_⟩
    rw [Nat.zero_add] at hepr
    exact hepr

/-- Characterisation of a resource-map entry: it belongs to an entry point
of the module and originates from a global variable that is used by that
entry point, whose explicit binding equals the key, and whose address
space passed the uniform/storage filter producing the value. -/
theorem mem_map_resources_char {m : Module} {used : Nat → Nat → Bool}
    {name : String} {epr : EntryPointResources} {k : ResourceBinding}
    {v : BindTarget}
    (h1 : (name, epr) ∈ build_per_entry_point_map m used)
    (h2 : (k, v) ∈ epr.resources) :
    ∃ j ep i g, m.entry_points.get? j = some ep ∧ ep.name = name ∧
      m.global_variables.get? i = some g ∧ used j i = true ∧
      g.binding = some k ∧
      convert_space_to_target g.space k.binding = some v := by
  obtain ⟨j, ep, hj, hn, hepr⟩ := mem_build_per_entry_point_map h1
  rw [hepr] at h2
  obtain ⟨i, g, hi, hu, hb, hc⟩ := mem_build_entry_resources h2
  exact ⟨j, ep, i, g, hj, hn, hi, hu, hb, hc⟩

/-- C3: every (group, binding) entry of a per-entry-point resource map
corresponds to a global variable that has an explicit binding equal to the
key, is in uniform or storage address space, and is reported used by the
usage predicate for that specific entry point; globals failing any of
these conditions never contribute an entry, and omission is not an error
(the builder is a total function). -/
theorem binding_map_entries_correspond (m : Module) (used : Nat → Nat → Bool)
    (name : String) (epr : EntryPointResources) (k : ResourceBinding)
    (v : BindTarget)
    (hmap : (name, epr) ∈ build_per_entry_point_map m used)
    (hres : (k, v) ∈ epr.resources) :
    ∃ j ep i g, m.entry_points.get? j = some ep ∧ ep.name = name ∧
      m.global_variables.get? i = some g ∧ used j i = true ∧
      g.binding = some k ∧
      (g.space = AddressSpace.Uniform ∨
        ∃ a, g.space = AddressSpace.Storage a) := by
  obtain ⟨j, ep, i, g, hj, hn, hi, hu, hb, hc⟩ := mem_map_resources_char hmap hres
  refine ⟨j, ep, i, g, hj, hn, hi, hu, hb, ?_⟩
  cases hg : g.space with
  | Uniform => exact Or.inl rfl
  | Storage a => exact Or.inr ⟨a, rfl⟩
  | Function =>
    rw [hg] at hc
    exact absurd hc (by simp [convert_space_to_target])
  | Private =>
    rw [hg] at hc
    exact absurd hc (by simp [convert_space_to_target])
  | WorkGroup =>
    rw [hg] at hc
    exact absurd hc (by simp [convert_space_to_target])
  | Handle =>
    rw [hg] at hc
    exact absurd hc (by simp [convert_space_to_target])
  | PushConstant =>
    rw [hg] at hc
    exact absurd hc (by simp [convert_space_to_target])

/-- Witness for C3: the characterisation applied to the concrete module
with one used uniform global at (group 1, binding 2). -/
theorem binding_map_entries_correspond_witness :
    ∃ j ep i g, uniMod.entry_points.get? j = some ep ∧ ep.name = "vmain" ∧
      uniMod.global_variables.get? i = some g ∧ usedAll j i = true ∧
      g.binding = some { group := 1, binding := 2 } ∧
      (g.space = AddressSpace.Uniform ∨
        ∃ a, g.space = AddressSpace.Storage a) :=
  binding_map_entries_correspond uniMod usedAll "vmain"
    { resources := [({ group := 1, binding := 2 },
        { buffer := some 2, texture := none, sampler := none, mutable := false })],
      push_constant_buffer := none, sizes_buffer := none }
    { group := 1, binding := 2 }
    { buffer := some 2, texture := none, sampler := none, mutable := false }
    (by decide) (by decide)

/-- C4: a resource-map entry's mutability flag is true exactly when the
originating global variable's address space is storage with store access
in its flags; in particular uniform globals and load-only storage globals
yield mutable = false. -/
theorem binding_map_mutability (m : Module) (used : Nat → Nat → Bool)
    (name : String) (epr : EntryPointResources) (k : ResourceBinding)
    (v : BindTarget)
    (hmap : (name, epr) ∈ build_per_entry_point_map m used)
    (hres : (k, v) ∈ epr.resources) :
    ∃ j ep i g, m.entry_points.get? j = some ep ∧ ep.name = name ∧
      m.global_variables.get? i = some g ∧ used j i = true ∧
      g.binding = some k ∧
      (v.mutable = true ↔
        ∃ a, g.space = AddressSpace.Storage a ∧ a.store = true) := by
  obtain ⟨j, ep, i, g, hj, hn, hi, hu, hb, hc⟩ := mem_map_resources_char hmap hres
  refine ⟨j, ep, i, g, hj, hn, hi, hu, hb, ?_⟩
  cases hg : g.space with
  | Uniform =>
    rw [hg] at hc
    simp only [convert_space_to_target, Option.some.injEq] at hc
    rw [← hc]
    simp
  | Storage a =>
    rw [hg] at hc
    simp only [convert_space_to_target, Option.some.injEq] at hc
    rw [← hc]
    simp [AddressSpace.Storage.injEq]
  | Function =>
    rw [hg] at hc
    exact absurd hc (by simp [convert_space_to_target])
  | Private =>
    rw [hg] at hc
    exact absurd hc (by simp [convert_space_to_target])
  | WorkGroup =>
    rw [hg] at hc
    exact absurd hc (by simp [convert_space_to_target])
  | Handle =>
    rw [hg] at hc
    exact absurd hc (by simp [convert_space_to_target])
  | PushConstant =>
    rw [hg] at hc
    exact absurd hc (by simp [convert_space_to_target])

/-- Witness for C4: the mutability characterisation applied to the
concrete module with one used storage global (store access) at (0, 3). -/
theorem binding_map_mutability_witness :
    ∃ j ep i g, storeMod.entry_points.get? j = some ep ∧ ep.name = "smain" ∧
      storeMod.global_variables.get? i = some g ∧ usedAll j i = true ∧
      g.binding = some { group := 0, binding := 3 } ∧
      (({ buffer := some 3, texture := none, sampler := none,
          mutable := true } : BindTarget).mutable = true ↔
        ∃ a, g.space = AddressSpace.Storage a ∧ a.store = true) :=
  binding_map_mutability storeMod usedAll "smain"
    { resources := [({ group := 0, binding := 3 },
        { buffer := some 3, texture := none, sampler := none, mutable := true })],
      push_constant_buffer := none, sizes_buffer := none }
    { group := 0, binding := 3 }
    { buffer := some 3, texture := none, sampler := none, mutable := true }
    (by decide) (by decide)

/-- C5: for a resource-map entry whose binding index is in the
representable 0-255 range, the key equals the originating variable's
(group, binding) pair, the buffer slot equals the binding index, and the
texture and sampler fields are unset. -/
theorem binding_map_slot_exact (m : Module) (used : Nat → Nat → Bool)
    (name : String) (epr : EntryPointResources) (k : ResourceBinding)
    (v : BindTarget)
    (hmap : (name, epr) ∈ build_per_entry_point_map m used)
    (hres : (k, v) ∈ epr.resources)
    (hk : k.binding < 256) :
    v.buffer = some k.binding ∧ v.texture = none ∧ v.sampler = none ∧
      ∃ j ep i g, m.entry_points.get? j = some ep ∧ ep.name = name ∧
        m.global_variables.get? i = some g ∧ used j i = true ∧
        g.binding = some k := by
  obtain ⟨j, ep, i, g, hj, hn, hi, hu, hb, hc⟩ := mem_map_resources_char hmap hres
  have hv : v.buffer = some (k.binding % 256) ∧ v.texture = none ∧
      v.sampler = none := by
    cases hg : g.space with
    | Uniform =>
      rw [hg] at hc
      simp only [convert_space_to_target, Option.some.injEq] at hc
      rw [← hc]
      exact ⟨rfl, rfl, rfl⟩
    | Storage a =>
      rw [hg] at hc
      simp only [convert_space_to_target, Option.some.injEq] at hc
      rw [← hc]
      exact ⟨rfl, rfl, rfl⟩
    | Function =>
      rw [hg] at hc
      exact absurd hc (by simp [convert_space_to_target])
    | Private =>
      rw [hg] at hc
      exact absurd hc (by simp [convert_space_to_target])
    | WorkGroup =>
      rw [hg] at hc
      exact absurd hc (by simp [convert_space_to_target])
    | Handle =>
      rw [hg] at hc
      exact absurd hc (by simp [convert_space_to_target])
    | PushConstant =>
      rw [hg] at hc
      exact absurd hc (by simp [convert_space_to_target])
  refine ⟨?_, hv.2.1, hv.2.2, j, ep, i, g, hj, hn, hi, hu, hb⟩
  rw [hv.1, Nat.mod_eq_of_lt hk]

/-- Witness for C5: the slot characterisation applied to the concrete
module with one used uniform global at (0, 7). -/
theorem binding_map_slot_exact_witness :
    ({ buffer := some 7, texture := none, sampler := none,
        mutable := false } : BindTarget).buffer = some 7 ∧
      ({ buffer := some 7, texture := none, sampler := none,
          mutable := false } : BindTarget).texture = none ∧
      ({ buffer := some 7, texture := none, sampler := none,
          mutable := false } : BindTarget).sampler = none ∧
      ∃ j ep i g, slotMod.entry_points.get? j = some ep ∧ ep.name = "umain" ∧
        slotMod.global_variables.get? i = some g ∧ usedAll j i = true ∧
        g.binding = some { group := 0, binding := 7 } :=
  binding_map_slot_exact slotMod usedAll "umain"
    { resources := [({ group := 0, binding := 7 },
        { buffer := some 7, texture := none, sampler := none, mutable := false })],
      push_constant_buffer := none, sizes_buffer := none }
    { group := 0, binding := 7 }
    { buffer := some 7, texture := none, sampler := none, mutable := false }
    (by decide) (by decide) (by decide)

/-- C1 (failing evaluation): a used uniform global with binding index 300,
which exceeds the 0-255 range representable in the target's u8 buffer
slot, is silently truncated by the `as u8` cast to slot 44 = 300 mod 256;
the builder is a total function with no error outcome, and the driver run
on such a module completes successfully and hands content to the output
file write, instead of aborting with a BindingRangeError. -/
theorem binding_index_truncated_not_rejected :
    build_per_entry_point_map truncMod usedAll =
      [("tmain",
        { resources := [({ group := 0, binding := 300 },
            { buffer := some 44, texture := none, sampler := none,
              mutable := false })],
          push_constant_buffer := none, sizes_buffer := none })] ∧
    convert_wgsl_to_msl "in.wgsl" "out.msl" (Except.ok "src")
      (fun _ => Except.ok truncMod) (fun _ => Except.ok usedAll)
      (some ("shader".data)) (fun _ _ _ => Except.ok ("msl".data))
      (fun _ => Except.ok ()) = (Except.ok (), some ("msl".data)) :=
  ⟨by decide, by rfl⟩

/-- C8: stage sequencing of the translation driver.  The first conjunct
states that content is handed to the output file write only after the
read, parse, validation, filename-stem extraction and code-generation
stages (with the binding map built in between) have all succeeded; the
remaining conjuncts state that each stage failure aborts the pipeline with
the underlying error wrapped in stage context and with no output written. -/
theorem convert_wgsl_to_msl_staging
    (inputPath outputPath : String)
    (readRes : Except String String)
    (parseFn : String → Except String Module)
    (validateFn : Module → Except String (Nat → Nat → Bool))
    (fileStem : Option (List Char))
    (generateFn : Module → (Nat → Nat → Bool) →
      List (String × EntryPointResources) → Except String (List Char))
    (writeRes : List Char → Except String Unit) :
    ((convert_wgsl_to_msl inputPath outputPath readRes parseFn validateFn
        fileStem generateFn writeRes).2 ≠ none →
      ∃ src module info stem msl, readRes = Except.ok src ∧
        parseFn src = Except.ok module ∧
        validateFn module = Except.ok info ∧ fileStem = some stem ∧
        generateFn module info (build_per_entry_point_map module info) =
          Except.ok msl) ∧
    (∀ e, readRes = Except.error e →
      convert_wgsl_to_msl inputPath outputPath readRes parseFn validateFn
          fileStem generateFn writeRes =
        (Except.error (("Failed to read ") ++ inputPath ++ (": ") ++ e), none)) ∧
    (∀ src e, readRes = Except.ok src → parseFn src = Except.error e →
      convert_wgsl_to_msl inputPath outputPath readRes parseFn validateFn
          fileStem generateFn writeRes =
        (Except.error (("WGSL parse error: ") ++ e), none)) ∧
    (∀ src module e, readRes = Except.ok src →
      parseFn src = Except.ok module → validateFn module = Except.error e →
      convert_wgsl_to_msl inputPath outputPath readRes parseFn validateFn
          fileStem generateFn writeRes =
        (Except.error (("Validation error: ") ++ e), none)) ∧
    (∀ src module info, readRes = Except.ok src →
      parseFn src = Except.ok module → validateFn module = Except.ok info →
      fileStem = none →
      convert_wgsl_to_msl inputPath outputPath readRes parseFn validateFn
          fileStem generateFn writeRes =
        (Except.error ("Invalid filename"), none)) ∧
    (∀ src module info stem e, readRes = Except.ok src →
      parseFn src = Except.ok module → validateFn module = Except.ok info →
      fileStem = some stem →
      generateFn module info (build_per_entry_point_map module info) =
        Except.error e →
      convert_wgsl_to_msl inputPath outputPath readRes parseFn validateFn
          fileStem generateFn writeRes =
        (Except.error (("MSL generation error: ") ++ e), none)) := by
  refine ⟨?_, ?_, ?_, ?_, ?_, ?_⟩
  · intro h
    rcases hr : readRes with e | src
    · rw [hr] at h
      simp [convert_wgsl_to_msl] at h
    · rcases hp : parseFn src with e | module
      · rw [hr] at h
        simp [convert_wgsl_to_msl, hp] at h
      · rcases hv : validateFn module with e | info
        · rw [hr] at h
          simp [convert_wgsl_to_msl, hp, hv] at h
        · rcases hs : fileStem with _ | stem
          · rw [hr, hs] at h
            simp [convert_wgsl_to_msl, hp, hv] at h
          · rcases hg : generateFn module info
              (build_per_entry_point_map module info) with e | msl
            · rw [hr, hs] at h
              simp [convert_wgsl_to_msl, hp, hv, hg] at h
            · exact ⟨src, module, info, stem, msl, rfl, hp, hv, rfl, hg⟩
  · intro e he
    rw [he]
    rfl
  · intro src e h1 h2
    rw [h1]
    simp [convert_wgsl_to_msl, h2]
  · intro src module e h1 h2 h3
    rw [h1]
    simp [convert_wgsl_to_msl, h2, h3]
  · intro src module info h1 h2 h3 h4
    rw [h1, h4]
    simp [convert_wgsl_to_msl, h2, h3]
  · intro src module info stem e h1 h2 h3 h4 h5
    rw [h1, h4]
    simp [convert_wgsl_to_msl, h2, h3, h5]

/-- Witness for C8: a failing read aborts the whole pipeline with the
wrapped message and no content is handed to the output write. -/
theorem convert_wgsl_to_msl_staging_witness :
    convert_wgsl_to_msl "in.wgsl" "out.msl" (Except.error "no such file")
        pfD vfD (some ("shader".data)) gfD wfD =
      (Except.error ("Failed to read in.wgsl: no such file"), none) :=
  (convert_wgsl_to_msl_staging "in.wgsl" "out.msl" (Except.error "no such file")
      pfD vfD (some ("shader".data)) gfD wfD).2.1 "no such file" rfl

/-- C9 counterexample: on the empty argument list (which `env::args` can
produce, per the Rust documentation), `main` does not print a usage
message and exit; `args[0]` panics with an index-out-of-bounds message
before any usage text is written. -/
theorem main_empty_args_panics :
    mainFn [] (Except.ok ()) =
      MainOutcome.panicked
        ("index out of bounds: the len is 0 but the index is 0") := by
  rfl

/-- C9 (amended): for every argument list of the wrong length that
contains at least the program name, `main` prints a usage message to
standard error and exits with a non-zero status (an empty argument list
instead panics); with exactly three arguments, a pipeline failure prints
"Error: <message>" to standard error and exits non-zero, and success exits
with status 0 and produces no stdout output. -/
theorem main_cli_surface :
    (∀ (a0 : String) (rest : List String) (pipeline : Except String Unit),
      (a0 :: rest).length ≠ 3 →
      mainFn (a0 :: rest) pipeline =
        MainOutcome.exit 1
          [("Usage: ") ++ a0 ++ (" <input.wgsl> <output.msl>")] []) ∧
    (∀ a0 a1 a2 e : String,
      mainFn [a0, a1, a2] (Except.error e) =
        MainOutcome.exit 1 [("Error: ") ++ e] []) ∧
    (∀ a0 a1 a2 : String,
      mainFn [a0, a1, a2] (Except.ok ()) = MainOutcome.exit 0 [] []) := by
  refine ⟨?_, ?_, ?_⟩
  · intro a0 rest pipeline h
    simp only [mainFn, if_pos h]
  · intro a0 a1 a2 e
    simp [mainFn]
  · intro a0 a1 a2
    simp [mainFn]

/-- Witness for C9: the three behaviours at concrete argument lists. -/
theorem main_cli_surface_witness :
    mainFn ["prog"] (Except.ok ()) =
      MainOutcome.exit 1
        [("Usage: ") ++ "prog" ++ (" <input.wgsl> <output.msl>")] [] ∧
    mainFn ["prog", "a.wgsl", "b.msl"] (Except.error "boom") =
      MainOutcome.exit 1 [("Error: ") ++ "boom"] [] ∧
    mainFn ["prog", "a.wgsl", "b.msl"] (Except.ok ()) =
      MainOutcome.exit 0 [] [] :=
  ⟨main_cli_surface.1 "prog" [] (Except.ok ()) (by decide),
    main_cli_surface.2.1 "prog" "a.wgsl" "b.msl" "boom",
    main_cli_surface.2.2 "prog" "a.wgsl" "b.msl"⟩

end WgslToMsl
